import Mathlib

/-!
A verification development for the `s3c4` Go package: a content-addressable
object store adapter over an S3-compatible backend.  The definitions below
are a shallow embedding of the package's source (`s3c4.go`): keys are built
from a c4 identifier's canonical string using Go's `path.Join`, `Create`
returns a write handle whose `Close` runs a bounded confirmation-poll loop,
`Open` downloads the object synchronously and feeds it through a pipe, and
the store's `Close` waits on a counting wait-group of in-flight transfers.

Bytes are modelled as `Nat`, strings as `List Char`, and durations as `Nat`
(milliseconds).  The S3 service is passed to each operation as an explicit
behaviour record, because its remote state evolves between calls.
-/

namespace S3C4

/-- The base58 alphabet used by c4 identifiers (no `0`, `O`, `I`, `l`). -/
def c4Charset : List Char :=
  "123456789ABCDEFGHJKLMNPQRSTUVWXYZabcdefghijkmnopqrstuvwxyz".data

/-- A c4 content identifier (`c4.ID` in the source): its canonical string is
`"c4"` followed by base58 digits. -/
structure C4ID where
  digits : List (Fin 58)
deriving DecidableEq

/-- `c4.ID.String()`: the canonical string form of an identifier. -/
def C4ID.string (id : C4ID) : List Char :=
  'c' :: '4' :: id.digits.map (fun d => c4Charset.get (Fin.cast rfl d))

/-- Split a path into the segments between `'/'` separators
(the component decomposition Go's `path.Clean` works on). -/
def splitSlash : List Char → List (List Char)
  | [] => [[]]
  | c :: rest =>
    if c = '/' then [] :: splitSlash rest
    else
      match splitSlash rest with
      | [] => [[c]]
      | s :: ss => (c :: s) :: ss

/-- The element-stack pass of Go's `path.Clean`: drop empty and `"."`
segments, resolve `".."` against the stack (kept when unrooted and nothing
is left to pop). `acc` is the stack, reversed. -/
def cleanSegs (acc : List (List Char)) (segs : List (List Char)) (rooted : Bool) :
    List (List Char) :=
  match segs with
  | [] => acc.reverse
  | c :: rest =>
    if c = [] ∨ c = ['.'] then cleanSegs acc rest rooted
    else if c = ['.', '.'] then
      match acc with
      | top :: acc2 =>
        if top = ['.', '.'] then cleanSegs (c :: top :: acc2) rest rooted
        else cleanSegs acc2 rest rooted
      | [] =>
        if rooted then cleanSegs [] rest rooted
        else cleanSegs [c] rest rooted
    else cleanSegs (c :: acc) rest rooted

/-- Go's `path.Clean`, specified segment-wise: shortest lexically equivalent
path (empty path cleans to `"."`). -/
def cleanPath (l : List Char) : List Char :=
  if l = [] then ['.']
  else
    let rooted : Bool := l.head? = some '/'
    let body := List.intercalate ['/'] (cleanSegs [] (splitSlash l) rooted)
    if rooted then '/' :: body
    else if body = [] then ['.'] else body

/-- Go's `path.Join` on two elements: empty elements are skipped, the rest
are joined with `'/'` and the result is `Clean`ed; all-empty yields `""`. -/
def goPathJoin (a b : List Char) : List Char :=
  if a = [] ∧ b = [] then []
  else if a = [] then cleanPath b
  else cleanPath (a ++ '/' :: b)

/-- One primitive call issued against the S3 backend. -/
inductive BackendCall
  | headObject (key : List Char)
  | getObject (key : List Char)
  | putObject (key : List Char)
  | deleteObject (key : List Char)
deriving DecidableEq

/-- The behaviour of the S3 backend as seen by one operation: whether
`HeadObject` succeeds on a key, what `Download` (GetObject) yields — bytes,
or an error message together with the byte count reached — and what
`DeleteObject` yields. -/
structure Backend where
  headExists : List Char → Bool
  getObject : List Char → Except (Int × List Char) (List Nat)
  deleteObject : List Char → Option (List Char)

/-- The error value wrapped by `os.PathError` in this package
(only `os.ErrExist` is ever used). -/
inductive ErrKind
  | errExist
deriving DecidableEq

/-- `os.PathError`, as built by `Store.Create` on the already-exists path. -/
structure PathError where
  op : List Char
  path : List Char
  err : ErrKind
deriving DecidableEq

/-- The `Store` struct: confirmation configuration, bucket, key prefix, and
the wait-group counter split into its increments (`wg.Add`) and decrements
(`wg.Done`). -/
structure Store where
  confirmCreate : Bool
  confirmationTimeout : Nat
  confirmationRequestRate : Nat
  bucket : List Char
  pfx : List Char
  wgSpawned : Nat
  wgDone : Nat
deriving DecidableEq

/-- `New`: stores configuration and applies the defaults
(confirm-on-create true, 5 s timeout, 500 ms poll rate); the error result
is always nil. -/
def New (bucket keypfx : List Char) : Store × Option (List Char) :=
  ({ confirmCreate := true
     confirmationTimeout := 5000
     confirmationRequestRate := 500
     bucket := bucket
     pfx := keypfx
     wgSpawned := 0
     wgDone := 0 }, none)

/-- The key computed by `Create` and `Open`: the prefix is joined with the
identifier's canonical string only when the prefix is non-empty. -/
def storeKey (pfx : List Char) (id : C4ID) : List Char :=
  if 0 < pfx.length then goPathJoin pfx id.string else id.string

/-- The write handle returned by `Create` (`s3WriteCloser` in the source).
`w` records the bytes accepted into the pipe's write end so far. -/
structure S3WriteCloser where
  confirmCreate : Bool
  confirmationTimeout : Nat
  confirmationRequestRate : Nat
  id : C4ID
  w : List Nat
  closed : Bool
  headKey : List Char
deriving DecidableEq

/-- The errors `s3WriteCloser.Close` can return: the double-close guard,
a pipe-close failure, or `ErrConfirmationTimeout` carrying the identifier
and the timeout. -/
inductive CloseErr
  | alreadyClosed
  | pipeClose (msg : List Char)
  | confirmationTimeout (id : C4ID) (timeout : Nat)
deriving DecidableEq

/-- Observable side effects of one `Close` call: whether the pipe write end
was closed (which is what lets the background upload finish), and how many
`HeadObject` confirmation polls were issued. -/
structure CloseEffects where
  pipeClosed : Bool
  headPolls : Nat
deriving DecidableEq

/-- The environment a `Close` call runs against: the result of closing the
pipe write end, and whether the `HeadObject` poll issued at index `k`
succeeds. -/
structure CloseEnv where
  pipeCloseErr : Option (List Char)
  headSucceedsAt : Nat → Bool

/-- Number of confirmation polls that fit strictly before the timeout fires:
polls are issued at times `0, rate, 2·rate, …`. -/
def pollCount (timeout rate : Nat) : Nat :=
  if rate = 0 then timeout else (timeout + rate - 1) / rate

/-- Index of the first successful poll among the first `n`, if any. -/
def firstPollSuccess (f : Nat → Bool) (n : Nat) : Option Nat :=
  (List.range n).find? f

/-- `s3WriteCloser.Write`: forwards the bytes to the pipe's write end. -/
def S3WriteCloser.Write (h : S3WriteCloser) (b : List Nat) : S3WriteCloser × Nat :=
  ({ h with w := h.w ++ b }, b.length)

/-- `s3WriteCloser.Close`: rejects a second close, marks the handle closed,
closes the pipe write end (returning its error if any), then — only when
`confirmCreate` is set — runs the confirmation loop: `HeadObject` polls at
the configured rate race against the timeout timer. -/
def S3WriteCloser.Close (h : S3WriteCloser) (env : CloseEnv) :
    Option CloseErr × S3WriteCloser × CloseEffects :=
  if h.closed then (some CloseErr.alreadyClosed, h, ⟨false, 0⟩)
  else
    let h2 := { h with closed := true }
    match env.pipeCloseErr with
    | some e => (some (CloseErr.pipeClose e), h2, ⟨true, 0⟩)
    | none =>
      if h.confirmCreate = false then (none, h2, ⟨true, 0⟩)
      else
        let n := pollCount h.confirmationTimeout h.confirmationRequestRate
        match firstPollSuccess env.headSucceedsAt n with
        | some k => (none, h2, ⟨true, k + 1⟩)
        | none =>
          (some (CloseErr.confirmationTimeout h.id h.confirmationTimeout), h2, ⟨true, n⟩)

/-- `Store.Create`: computes the key, pre-checks existence with
`HeadObject`, fails with `os.PathError{Op: create, Path: key, Err: ErrExist}`
when the object exists, and otherwise registers one in-flight transfer and
spawns the background `Upload` (one `PutObject` fed from the pipe's read
end), returning the write handle. -/
def Store.Create (s : Store) (b : Backend) (id : C4ID) :
    Except PathError S3WriteCloser × Store × List BackendCall :=
  let key := storeKey s.pfx id
  if b.headExists key then
    (Except.error ⟨"create".data, key, ErrKind.errExist⟩, s, [BackendCall.headObject key])
  else
    (Except.ok ⟨s.confirmCreate, s.confirmationTimeout, s.confirmationRequestRate,
       id, [], false, key⟩,
     { s with wgSpawned := s.wgSpawned + 1 },
     [BackendCall.headObject key, BackendCall.putObject key])

/-- The read handle returned by `Open`: the pipe carrying the downloaded
bytes that the background copier feeds. -/
structure ReadHandle where
  pipe : List Nat
deriving DecidableEq

/-- The message of the error `Open` returns when the download fails:
`fmt.Errorf("%s %s (n == %d)", key, err, n)`. -/
def openErrMsg (key emsg : List Char) (n : Int) : List Char :=
  key ++ " ".data ++ emsg ++ " (n == ".data ++ (toString n).data ++ ")".data

/-- `Store.Open`: computes the key, downloads the object synchronously, and
on success registers one in-flight transfer and spawns the background copy
into the pipe the returned read handle wraps. -/
def Store.Open (s : Store) (b : Backend) (id : C4ID) :
    Except (List Char) ReadHandle × Store × List BackendCall :=
  let key := storeKey s.pfx id
  match b.getObject key with
  | Except.error (n, emsg) =>
    (Except.error (openErrMsg key emsg n), s, [BackendCall.getObject key])
  | Except.ok data =>
    (Except.ok ⟨data⟩, { s with wgSpawned := s.wgSpawned + 1 },
     [BackendCall.getObject key])

/-- One `Read` call on the read handle: yields up to `bufSize` bytes, or
reports end-of-data (`io.EOF`) once the pipe is exhausted. -/
def ReadHandle.Read (r : ReadHandle) (bufSize : Nat) : List Nat × ReadHandle × Bool :=
  match r.pipe with
  | [] => ([], r, true)
  | d => (d.take bufSize, ⟨d.drop bufSize⟩, false)

/-- The consumer loop: repeated `Read` calls with a fixed buffer size,
accumulating everything until end-of-data (`fuel` bounds the iteration). -/
def readAll : Nat → ReadHandle → Nat → List Nat
  | 0, _, _ => []
  | fuel + 1, r, bufSize =>
    let step := ReadHandle.Read r bufSize
    if step.2.2 then [] else step.1 ++ readAll fuel step.2.1 bufSize

/-- `Store.Remove`: always path-joins the prefix with the canonical string
and issues one synchronous `DeleteObject`, propagating its error. -/
def Store.Remove (s : Store) (b : Backend) (id : C4ID) :
    Option (List Char) × List BackendCall :=
  let path := goPathJoin s.pfx id.string
  (b.deleteObject path, [BackendCall.deleteObject path])

/-- `Store.Close` (`wg.Wait(); return nil`): `some r` means the call has
returned with error value `r`; `none` means it is still blocked waiting for
in-flight transfers. -/
def Store.Close (s : Store) : Option (Option (List Char)) :=
  if s.wgSpawned = s.wgDone then some none else none

/-- Wait-group events: a transfer being registered by `Create`/`Open`
(`wg.Add(1)`) and a background transfer terminating (`wg.Done()`). -/
inductive TransferEv
  | spawn
  | done
deriving DecidableEq

/-- Apply one wait-group event to the store. -/
def Store.stepEv (s : Store) : TransferEv → Store
  | TransferEv.spawn => { s with wgSpawned := s.wgSpawned + 1 }
  | TransferEv.done => { s with wgDone := s.wgDone + 1 }

/-- Apply a sequence of wait-group events to the store. -/
def Store.runEvs (s : Store) (evs : List TransferEv) : Store :=
  evs.foldl Store.stepEv s

/-- The backend's object state: which bytes are stored under which key. -/
def BackendState : Type := List Char → Option (List Nat)

/-- The state after a `PutObject` of `v` at `key` completes. -/
def putState (st : BackendState) (key : List Char) (v : List Nat) : BackendState :=
  fun k => if k = key then some v else st k

/-- The backend behaviour induced by an object state: `HeadObject` succeeds
exactly on stored keys, `GetObject` yields the stored bytes or a not-found
error with zero bytes downloaded, `DeleteObject` succeeds. -/
def backendOf (st : BackendState) : Backend :=
  { headExists := fun k => (st k).isSome
    getObject := fun k =>
      match st k with
      | some d => Except.ok d
      | none => Except.error (0, "NoSuchKey".data)
    deleteObject := fun _ => none }

/-- The producer loop: a sequence of `Write` calls on the handle. -/
def S3WriteCloser.writeChunks (h : S3WriteCloser) (chunks : List (List Nat)) :
    S3WriteCloser :=
  chunks.foldl (fun h c => (S3WriteCloser.Write h c).1) h

/-- The end-to-end scenario of the package's documented usage: `Create`,
a sequence of `Write`s, `Close` (the pipe write end closes without error —
`io.PipeWriter.Close` always returns nil — after which the background
`Upload` delivers all piped bytes to the backend and the confirmation polls
see the updated state), then `Open` and the read loop. `none` marks any
error along the way. -/
def roundTrip (s : Store) (st : BackendState) (id : C4ID)
    (chunks : List (List Nat)) (bufSize fuel : Nat) : Option (List Nat) :=
  match Store.Create s (backendOf st) id with
  | (Except.error _, _, _) => none
  | (Except.ok h, s1, _) =>
    let h1 := S3WriteCloser.writeChunks h chunks
    let st1 := putState st h1.headKey h1.w
    match (S3WriteCloser.Close h1
        ⟨none, fun _ => (backendOf st1).headExists h1.headKey⟩).1 with
    | some _ => none
    | none =>
      match Store.Open s1 (backendOf st1) id with
      | (Except.error _, _, _) => none
      | (Except.ok r, _, _) => some (readAll fuel r bufSize)

/-- Predicates on backend calls: uploads, downloads, and either. -/
def isPut : BackendCall → Bool
  | BackendCall.putObject _ => true
  | _ => false

def isGet : BackendCall → Bool
  | BackendCall.getObject _ => true
  | _ => false

def isTransfer (c : BackendCall) : Bool := isPut c || isGet c

def exceptOk {ε α : Type _} : Except ε α → Bool
  | Except.ok _ => true
  | Except.error _ => false

/-- A concrete identifier, store, and backends used to instantiate the
theorems below on closed inputs. -/
def wid : C4ID := ⟨[⟨0, Nat.succ_pos 57⟩]⟩

def s0 : Store := (New [] []).1

def bExists : Backend :=
  ⟨fun _ => true, fun _ => Except.ok [], fun _ => none⟩

def bFresh : Backend :=
  ⟨fun _ => false, fun _ => Except.ok [7, 8], fun _ => none⟩

def bFail : Backend :=
  ⟨fun _ => false, fun _ => Except.error (3, "boom".data), fun _ => none⟩

/-- A fresh write handle with the default confirmation configuration. -/
def h0t : S3WriteCloser := ⟨true, 5000, 500, wid, [], false, wid.string⟩

/-- A fresh write handle with confirmation disabled. -/
def h0f : S3WriteCloser := ⟨false, 5000, 500, wid, [], false, wid.string⟩

def envNever : CloseEnv := ⟨none, fun _ => false⟩

def envAlways : CloseEnv := ⟨none, fun _ => true⟩

def envPipeErr : CloseEnv := ⟨some "pipe failure".data, fun _ => true⟩

def emptyState : BackendState := fun _ => none

theorem c4Charset_length : c4Charset.length = 58 := rfl

theorem c4Charset_no_slash : '/' ∉ c4Charset := by decide

theorem c4id_string_no_slash (id : C4ID) : '/' ∉ id.string := by
  intro hmem
  simp only [C4ID.string, List.mem_cons, List.mem_map] at hmem
  rcases hmem with h | h | ⟨d, _, h⟩
  · exact absurd h (by decide)
  · exact absurd h (by decide)
  · exact c4Charset_no_slash (h ▸ List.get_mem c4Charset _ _)

theorem c4id_string_ne_nil (id : C4ID) : id.string ≠ [] := by
  simp [C4ID.string]

theorem c4id_string_ne_dot (id : C4ID) : id.string ≠ ['.'] := by
  simp [C4ID.string]

theorem c4id_string_ne_dotdot (id : C4ID) : id.string ≠ ['.', '.'] := by
  simp [C4ID.string]

theorem splitSlash_no_slash (l : List Char) (h : '/' ∉ l) : splitSlash l = [l] := by
  induction l with
  | nil => rfl
  | cons c rest ih =>
    have hc : ¬(c = '/') := fun hc => h (hc ▸ List.mem_cons_self c rest)
    have hr : '/' ∉ rest := fun hm => h (List.mem_cons_of_mem _ hm)
    simp [splitSlash, hc, ih hr]

theorem cleanSegs_single (l : List Char) (hne : l ≠ []) (h1 : l ≠ ['.'])
    (h2 : l ≠ ['.', '.']) (rooted : Bool) : cleanSegs [] [l] rooted = [l] := by
  simp [cleanSegs, hne, h1, h2]

theorem cleanPath_plain (l : List Char) (hne : l ≠ []) (hs : '/' ∉ l)
    (h1 : l ≠ ['.']) (h2 : l ≠ ['.', '.']) : cleanPath l = l := by
  have hrooted : (l.head? = some '/') = False := by
    cases l with
    | nil => exact absurd rfl hne
    | cons c rest =>
      simp only [List.head?_cons, Option.some.injEq, eq_iff_iff, iff_false]
      intro hc
      exact hs (hc ▸ List.mem_cons_self c rest)
  rw [cleanPath, if_neg hne]
  simp only [hrooted, decide_False]
  rw [splitSlash_no_slash l hs, cleanSegs_single l hne h1 h2]
  simp [List.intercalate, hne]

theorem goPathJoin_nil_left (b : List Char) (hb : b ≠ []) :
    goPathJoin [] b = cleanPath b := by
  simp [goPathJoin, hb]

theorem writeChunks_eq (h : S3WriteCloser) (cs : List (List Nat)) :
    S3WriteCloser.writeChunks h cs = { h with w := h.w ++ cs.flatten } := by
  induction cs generalizing h with
  | nil => simp [S3WriteCloser.writeChunks]
  | cons c cs ih =>
    simp only [S3WriteCloser.writeChunks, List.foldl_cons] at *
    rw [ih]
    simp [S3WriteCloser.Write]

theorem readAll_eq (fuel : Nat) (r : ReadHandle) (bufSize : Nat)
    (hbuf : 0 < bufSize) (hfuel : r.pipe.length ≤ fuel) :
    readAll fuel r bufSize = r.pipe := by
  induction fuel generalizing r with
  | zero =>
    have : r.pipe = [] := List.length_eq_zero.mp (Nat.le_zero.mp hfuel)
    simp [readAll, this]
  | succ fuel ih =>
    match hp : r.pipe with
    | [] => simp [readAll, ReadHandle.Read, hp]
    | x :: d =>
      have hlt : ((x :: d).drop bufSize).length ≤ fuel := by
        rw [List.length_drop]
        have := hfuel
        rw [hp] at this
        simp only [List.length_cons] at this ⊢
        omega
      have hrec := ih ⟨(x :: d).drop bufSize⟩ hlt
      simp only [readAll, ReadHandle.Read, hp]
      simp only at hrec
      simp [hrec, List.take_append_drop]

theorem pollCount_pos (timeout rate : Nat) (ht : 0 < timeout) :
    0 < pollCount timeout rate := by
  unfold pollCount
  by_cases hr : rate = 0
  · simpa [hr]
  · have hrpos : 0 < rate := Nat.pos_of_ne_zero hr
    simp only [hr, if_false]
    have : 1 * rate ≤ timeout + rate - 1 := by omega
    exact (Nat.le_div_iff_mul_le hrpos).mpr this

theorem lt_pollCount_iff (k timeout rate : Nat) (hr : 0 < rate) :
    k < pollCount timeout rate ↔ k * rate < timeout := by
  unfold pollCount
  rw [if_neg (Nat.pos_iff_ne_zero.mp hr)]
  constructor
  · intro hk
    have h1 : k + 1 ≤ (timeout + rate - 1) / rate := hk
    have h2 : (k + 1) * rate ≤ timeout + rate - 1 :=
      (Nat.le_div_iff_mul_le hr).mp h1
    rw [Nat.succ_mul] at h2
    omega
  · intro hk
    have h2 : (k + 1) * rate ≤ timeout + rate - 1 := by
      rw [Nat.succ_mul]
      omega
    exact (Nat.le_div_iff_mul_le hr).mpr h2

theorem firstPollSuccess_none (f : Nat → Bool) (n : Nat)
    (h : ∀ k < n, f k = false) : firstPollSuccess f n = none := by
  rw [firstPollSuccess, List.find?_eq_none]
  intro k hk
  simp [h k (List.mem_range.mp hk)]

theorem firstPollSuccess_isSome (f : Nat → Bool) (n : Nat)
    (h : ∃ k < n, f k = true) : (firstPollSuccess f n).isSome = true := by
  rcases h with ⟨k, hk, hfk⟩
  rcases ho : firstPollSuccess f n with _ | v
  · rw [firstPollSuccess, List.find?_eq_none] at ho
    exact absurd hfk (by simpa using ho k (List.mem_range.mpr hk))
  · rfl

theorem firstPollSuccess_zero (f : Nat → Bool) (n : Nat)
    (hn : 0 < n) (hf : f 0 = true) : firstPollSuccess f n = some 0 := by
  rcases n with _ | m
  · omega
  · rw [firstPollSuccess, List.range_succ_eq_map]
    simp [List.find?, hf]

theorem runEvs_wgSpawned (s : Store) (evs : List TransferEv) :
    (Store.runEvs s evs).wgSpawned = s.wgSpawned + evs.count TransferEv.spawn := by
  induction evs generalizing s with
  | nil => simp [Store.runEvs]
  | cons e evs ih =>
    simp only [Store.runEvs, List.foldl_cons] at ih ⊢
    rw [ih]
    cases e <;> (simp [Store.stepEv, List.count_cons]; try omega)

theorem runEvs_wgDone (s : Store) (evs : List TransferEv) :
    (Store.runEvs s evs).wgDone = s.wgDone + evs.count TransferEv.done := by
  induction evs generalizing s with
  | nil => simp [Store.runEvs]
  | cons e evs ih =>
    simp only [Store.runEvs, List.foldl_cons] at ih ⊢
    rw [ih]
    cases e <;> (simp [Store.stepEv, List.count_cons]; try omega)

theorem close_on_closed (h : S3WriteCloser) (env : CloseEnv) (hcl : h.closed = true) :
    S3WriteCloser.Close h env = (some CloseErr.alreadyClosed, h, ⟨false, 0⟩) := by
  simp [S3WriteCloser.Close, hcl]

theorem close_sets_closed (h : S3WriteCloser) (env : CloseEnv) (hcl : h.closed = false) :
    (S3WriteCloser.Close h env).2.1 = { h with closed := true } := by
  unfold S3WriteCloser.Close
  simp only [hcl, Bool.false_eq_true, if_false]
  cases hpe : env.pipeCloseErr with
  | some e => simp
  | none =>
    by_cases hcc : h.confirmCreate = false
    · simp [hcc]
    · simp only [hcc, if_false]
      cases hfp : firstPollSuccess env.headSucceedsAt
          (pollCount h.confirmationTimeout h.confirmationRequestRate) with
      | none => simp
      | some k => simp

/-- C2: when the pre-check `HeadObject` reports the key as existing,
`Create` returns the already-exists `PathError` carrying the computed key
and no handle, leaves the store unchanged (no transfer registered), and
issues only the `HeadObject` call — no `PutObject`. -/
theorem create_already_exists (s : Store) (b : Backend) (id : C4ID)
    (hex : b.headExists (storeKey s.pfx id) = true) :
    Store.Create s b id =
      (Except.error ⟨"create".data, storeKey s.pfx id, ErrKind.errExist⟩, s,
       [BackendCall.headObject (storeKey s.pfx id)]) := by
  simp [Store.Create, hex]

theorem create_already_exists_witness :
    Store.Create s0 bExists wid =
      (Except.error ⟨"create".data, storeKey s0.pfx wid, ErrKind.errExist⟩, s0,
       [BackendCall.headObject (storeKey s0.pfx wid)]) :=
  create_already_exists s0 bExists wid rfl

/-- C3: with confirmation enabled and the pipe closed cleanly, `Close`
returns the typed `ErrConfirmationTimeout` carrying the identifier and the
timeout when no `HeadObject` poll issued before the timeout succeeds, and
returns nil when some poll before the timeout succeeds. -/
theorem close_confirmation_outcome (h : S3WriteCloser) (env : CloseEnv)
    (hcl : h.closed = false) (hcc : h.confirmCreate = true)
    (hp : env.pipeCloseErr = none) (hr : 0 < h.confirmationRequestRate) :
    ((∀ k, k * h.confirmationRequestRate < h.confirmationTimeout →
        env.headSucceedsAt k = false) →
      (S3WriteCloser.Close h env).1 =
        some (CloseErr.confirmationTimeout h.id h.confirmationTimeout))
    ∧ ((∃ k, k * h.confirmationRequestRate < h.confirmationTimeout ∧
        env.headSucceedsAt k = true) →
      (S3WriteCloser.Close h env).1 = none) := by
  constructor
  · intro hall
    have hnone : firstPollSuccess env.headSucceedsAt
        (pollCount h.confirmationTimeout h.confirmationRequestRate) = none :=
      firstPollSuccess_none _ _ (fun k hk =>
        hall k ((lt_pollCount_iff k _ _ hr).mp hk))
    simp [S3WriteCloser.Close, hcl, hp, hcc, hnone]
  · rintro ⟨k, hk, hfk⟩
    have hsome : (firstPollSuccess env.headSucceedsAt
        (pollCount h.confirmationTimeout h.confirmationRequestRate)).isSome = true :=
      firstPollSuccess_isSome _ _ ⟨k, (lt_pollCount_iff k _ _ hr).mpr hk, hfk⟩
    cases hfp : firstPollSuccess env.headSucceedsAt
        (pollCount h.confirmationTimeout h.confirmationRequestRate) with
    | none => rw [hfp] at hsome; cases hsome
    | some v => simp [S3WriteCloser.Close, hcl, hp, hcc, hfp]

theorem close_confirmation_outcome_witness :
    (S3WriteCloser.Close h0t envNever).1 =
      some (CloseErr.confirmationTimeout wid 5000) :=
  (close_confirmation_outcome h0t envNever rfl rfl rfl (by decide)).1
    (fun _ _ => rfl)

/-- C4: starting from a freshly constructed store, after any sequence of
wait-group events, the store facade's `Close` can only have returned once
every registered transfer has terminated (the spawn and done counts agree),
and when it returns the result is always nil; while some transfer is still
in flight, `Close` has not returned. -/
theorem store_close_after_transfers (bucket keypfx : List Char)
    (evs : List TransferEv) :
    (∀ r, Store.Close (Store.runEvs (New bucket keypfx).1 evs) = some r →
        r = none ∧ evs.count TransferEv.spawn = evs.count TransferEv.done)
    ∧ (evs.count TransferEv.spawn ≠ evs.count TransferEv.done →
        Store.Close (Store.runEvs (New bucket keypfx).1 evs) = none) := by
  have hs := runEvs_wgSpawned (New bucket keypfx).1 evs
  have hd := runEvs_wgDone (New bucket keypfx).1 evs
  have hs0 : (New bucket keypfx).1.wgSpawned = 0 := rfl
  have hd0 : (New bucket keypfx).1.wgDone = 0 := rfl
  rw [hs0] at hs
  rw [hd0] at hd
  constructor
  · intro r hr
    rw [Store.Close] at hr
    by_cases heq : (Store.runEvs (New bucket keypfx).1 evs).wgSpawned =
        (Store.runEvs (New bucket keypfx).1 evs).wgDone
    · rw [if_pos heq] at hr
      refine ⟨(Option.some.injEq _ _).mp hr.symm, ?_⟩
      omega
    · rw [if_neg heq] at hr
      cases hr
  · intro hne
    rw [Store.Close, if_neg (by omega)]

theorem store_close_after_transfers_witness :
    (none : Option (List Char)) = none ∧
      [TransferEv.spawn, TransferEv.done].count TransferEv.spawn =
        [TransferEv.spawn, TransferEv.done].count TransferEv.done :=
  (store_close_after_transfers [] [] [TransferEv.spawn, TransferEv.done]).1 none rfl

/-- C5: a second `Close` on the same write handle is rejected with the
already-closed error; it leaves the handle unchanged, does not close the
pipe again (so the upload is not re-triggered), and issues no confirmation
polls. -/
theorem close_twice_rejected (h : S3WriteCloser) (env env2 : CloseEnv)
    (hcl : h.closed = false) :
    S3WriteCloser.Close (S3WriteCloser.Close h env).2.1 env2 =
      (some CloseErr.alreadyClosed, (S3WriteCloser.Close h env).2.1, ⟨false, 0⟩) := by
  apply close_on_closed
  rw [close_sets_closed h env hcl]

theorem close_twice_rejected_witness :
    S3WriteCloser.Close (S3WriteCloser.Close h0t envNever).2.1 envNever =
      (some CloseErr.alreadyClosed, (S3WriteCloser.Close h0t envNever).2.1,
       ⟨false, 0⟩) :=
  close_twice_rejected h0t envNever envNever rfl

/-- C6: with confirm-on-create disabled and the pipe write end closing
cleanly, `Close` returns nil and issues zero `HeadObject` polls, for every
possible `HeadObject` behaviour. -/
theorem close_no_confirm (h : S3WriteCloser) (env : CloseEnv)
    (hcl : h.closed = false) (hcc : h.confirmCreate = false)
    (hp : env.pipeCloseErr = none) :
    S3WriteCloser.Close h env = (none, { h with closed := true }, ⟨true, 0⟩) := by
  simp [S3WriteCloser.Close, hcl, hp, hcc]

theorem close_no_confirm_witness :
    S3WriteCloser.Close h0f envAlways =
      (none, { h0f with closed := true }, ⟨true, 0⟩) :=
  close_no_confirm h0f envAlways rfl rfl rfl

/-- C7: when the synchronous download fails, `Open` returns no handle and
an error whose message starts with the computed key and contains the
backend error and the byte count attempted; the store is unchanged (no
background transfer registered) and only the `GetObject` call was issued. -/
theorem open_download_error (s : Store) (b : Backend) (id : C4ID) (n : Int)
    (emsg : List Char)
    (herr : b.getObject (storeKey s.pfx id) = Except.error (n, emsg)) :
    Store.Open s b id =
      (Except.error (openErrMsg (storeKey s.pfx id) emsg n), s,
        [BackendCall.getObject (storeKey s.pfx id)])
    ∧ (∃ t, openErrMsg (storeKey s.pfx id) emsg n = storeKey s.pfx id ++ t)
    ∧ (∃ u v, openErrMsg (storeKey s.pfx id) emsg n = u ++ (emsg ++ v))
    ∧ (∃ p q, openErrMsg (storeKey s.pfx id) emsg n = p ++ ((toString n).data ++ q)) := by
  refine ⟨?_, ?_, ?_, ?_⟩
  · simp [Store.Open, herr]
  · exact ⟨" ".data ++ emsg ++ " (n == ".data ++ (toString n).data ++ ")".data,
      by simp [openErrMsg, List.append_assoc]⟩
  · exact ⟨storeKey s.pfx id ++ " ".data,
      " (n == ".data ++ (toString n).data ++ ")".data,
      by simp [openErrMsg, List.append_assoc]⟩
  · exact ⟨storeKey s.pfx id ++ " ".data ++ emsg ++ " (n == ".data, ")".data,
      by simp [openErrMsg, List.append_assoc]⟩

theorem open_download_error_witness :
    Store.Open s0 bFail wid =
      (Except.error (openErrMsg (storeKey s0.pfx wid) "boom".data 3), s0,
        [BackendCall.getObject (storeKey s0.pfx wid)]) :=
  (open_download_error s0 bFail wid 3 "boom".data rfl).1

/-- C8: a `Create` that returns a handle issues exactly one `PutObject`, a
successful `Open` issues exactly one `GetObject`, and neither operation
ever issues more than one backend transfer call per invocation. -/
theorem one_transfer_per_operation (s : Store) (b : Backend) (id : C4ID) :
    (exceptOk (Store.Create s b id).1 = true →
      ((Store.Create s b id).2.2.filter isPut).length = 1)
    ∧ (exceptOk (Store.Open s b id).1 = true →
      ((Store.Open s b id).2.2.filter isGet).length = 1)
    ∧ ((Store.Create s b id).2.2.filter isTransfer).length ≤ 1
    ∧ ((Store.Open s b id).2.2.filter isTransfer).length ≤ 1 := by
  refine ⟨?_, ?_, ?_, ?_⟩
  · cases hh : b.headExists (storeKey s.pfx id) with
    | true => simp [Store.Create, hh, exceptOk]
    | false => simp [Store.Create, hh, isPut]
  · cases hg : b.getObject (storeKey s.pfx id) with
    | error e =>
      cases e with
      | mk n emsg => simp [Store.Open, hg, exceptOk]
    | ok d => simp [Store.Open, hg, isGet]
  · cases hh : b.headExists (storeKey s.pfx id) with
    | true => simp [Store.Create, hh, isTransfer, isPut, isGet]
    | false => simp [Store.Create, hh, isTransfer, isPut, isGet]
  · cases hg : b.getObject (storeKey s.pfx id) with
    | error e =>
      cases e with
      | mk n emsg => simp [Store.Open, hg, isTransfer, isPut, isGet]
    | ok d => simp [Store.Open, hg, isTransfer, isPut, isGet]

theorem one_transfer_per_operation_witness :
    ((Store.Create s0 bFresh wid).2.2.filter isPut).length = 1
    ∧ ((Store.Open s0 bFresh wid).2.2.filter isGet).length = 1 :=
  ⟨(one_transfer_per_operation s0 bFresh wid).1 rfl,
   (one_transfer_per_operation s0 bFresh wid).2.1 rfl⟩

/-- C9: for every prefix (empty included) and identifier, `Remove`
addresses exactly the key `Create` and `Open` compute: its unconditional
path-join of the prefix with the canonical string coincides with
`storeKey`, because joining an empty prefix yields the canonical string
itself. -/
theorem remove_addresses_same_key (s : Store) (b : Backend) (id : C4ID) :
    (Store.Remove s b id).2 = [BackendCall.deleteObject (storeKey s.pfx id)] := by
  rcases hp : s.pfx with _ | ⟨c, rest⟩
  · simp only [Store.Remove, storeKey, hp, List.length_nil, Nat.lt_irrefl, if_false]
    rw [goPathJoin_nil_left _ (c4id_string_ne_nil id),
        cleanPath_plain _ (c4id_string_ne_nil id) (c4id_string_no_slash id)
          (c4id_string_ne_dot id) (c4id_string_ne_dotdot id)]
  · simp [Store.Remove, storeKey, hp]

/-- C10: when the first `Close` fails closing the pipe, the failure is
returned, the confirmation loop has issued no poll, yet the handle is
already marked closed — so every subsequent `Close`, under any environment,
returns the already-closed error without effects: the failed `Close` is not
retryable and confirmation can never run for that handle. -/
theorem close_pipe_error_terminal (h : S3WriteCloser) (e : List Char)
    (env : CloseEnv) (hcl : h.closed = false) (hp : env.pipeCloseErr = some e) :
    S3WriteCloser.Close h env =
      (some (CloseErr.pipeClose e), { h with closed := true }, ⟨true, 0⟩)
    ∧ ∀ env2, S3WriteCloser.Close { h with closed := true } env2 =
        (some CloseErr.alreadyClosed, { h with closed := true }, ⟨false, 0⟩) := by
  constructor
  · simp [S3WriteCloser.Close, hcl, hp]
  · intro env2
    exact close_on_closed _ env2 rfl

theorem close_pipe_error_terminal_witness :
    S3WriteCloser.Close h0t envPipeErr =
      (some (CloseErr.pipeClose "pipe failure".data),
       { h0t with closed := true }, ⟨true, 0⟩)
    ∧ S3WriteCloser.Close { h0t with closed := true } envAlways =
      (some CloseErr.alreadyClosed, { h0t with closed := true }, ⟨false, 0⟩) := by
  have h := close_pipe_error_terminal h0t "pipe failure".data envPipeErr rfl rfl
  exact ⟨h.1, h.2 envAlways⟩

/-- C1: the round trip — `Create`, any sequence of `Write`s, `Close`,
`Open`, then reading to end-of-data with any positive buffer size — yields
exactly the written payload, byte for byte, including the empty payload and
payloads needing several `Read` calls. -/
theorem round_trip (s : Store) (st : BackendState) (id : C4ID)
    (chunks : List (List Nat)) (bufSize fuel : Nat)
    (habsent : st (storeKey s.pfx id) = none)
    (hbuf : 0 < bufSize) (hfuel : chunks.flatten.length ≤ fuel)
    (hconf : s.confirmCreate = false ∨ 0 < s.confirmationTimeout) :
    roundTrip s st id chunks bufSize fuel = some chunks.flatten := by
  have hhead : (backendOf st).headExists (storeKey s.pfx id) = false := by
    simp [backendOf, habsent]
  have hcreate : Store.Create s (backendOf st) id =
      (Except.ok ⟨s.confirmCreate, s.confirmationTimeout, s.confirmationRequestRate,
         id, [], false, storeKey s.pfx id⟩,
       { s with wgSpawned := s.wgSpawned + 1 },
       [BackendCall.headObject (storeKey s.pfx id),
        BackendCall.putObject (storeKey s.pfx id)]) := by
    simp [Store.Create, hhead]
  have hwc : S3WriteCloser.writeChunks
      ⟨s.confirmCreate, s.confirmationTimeout, s.confirmationRequestRate,
        id, [], false, storeKey s.pfx id⟩ chunks =
      ⟨s.confirmCreate, s.confirmationTimeout, s.confirmationRequestRate,
        id, chunks.flatten, false, storeKey s.pfx id⟩ := by
    rw [writeChunks_eq]
    simp
  simp only [roundTrip, hcreate, hwc]
  have hst1 : putState st (storeKey s.pfx id) chunks.flatten (storeKey s.pfx id) =
      some chunks.flatten := by
    simp [putState]
  have hf0 : (backendOf (putState st (storeKey s.pfx id) chunks.flatten)).headExists
      (storeKey s.pfx id) = true := by
    simp [backendOf, hst1]
  have hclose : (S3WriteCloser.Close
      ⟨s.confirmCreate, s.confirmationTimeout, s.confirmationRequestRate,
        id, chunks.flatten, false, storeKey s.pfx id⟩
      ⟨none, fun _ =>
        (backendOf (putState st (storeKey s.pfx id) chunks.flatten)).headExists
          (storeKey s.pfx id)⟩).1 = none := by
    rcases hconf with hcc | ht
    · simp [S3WriteCloser.Close, hcc]
    · have hfp : firstPollSuccess
          (fun _ => (backendOf (putState st (storeKey s.pfx id) chunks.flatten)).headExists
            (storeKey s.pfx id))
          (pollCount s.confirmationTimeout s.confirmationRequestRate) = some 0 :=
        firstPollSuccess_zero _ _ (pollCount_pos _ _ ht) hf0
      by_cases hcc : s.confirmCreate = false
      · simp [S3WriteCloser.Close, hcc]
      · simp [S3WriteCloser.Close, hcc, hfp]
  simp only [hclose]
  have hget : (backendOf (putState st (storeKey s.pfx id) chunks.flatten)).getObject
      (storeKey s.pfx id) = Except.ok chunks.flatten := by
    simp [backendOf, hst1]
  have hopen : Store.Open { s with wgSpawned := s.wgSpawned + 1 }
      (backendOf (putState st (storeKey s.pfx id) chunks.flatten)) id =
      (Except.ok ⟨chunks.flatten⟩,
       { s with wgSpawned := s.wgSpawned + 2 },
       [BackendCall.getObject (storeKey s.pfx id)]) := by
    simp [Store.Open, hget]
  simp only [hopen]
  rw [readAll_eq fuel ⟨chunks.flatten⟩ bufSize hbuf hfuel]

theorem round_trip_witness :
    roundTrip s0 emptyState wid [[1, 2], [3, 4, 5]] 2 5 = some [1, 2, 3, 4, 5] :=
  round_trip s0 emptyState wid [[1, 2], [3, 4, 5]] 2 5 rfl (by decide) (by decide)
    (Or.inr (by decide))

end S3C4
